import Mathlib

/-!
Verification of the coverage-merge pipeline and the counter utilities of this
repository, as a shallow embedding in Lean 4.

Sources embedded:
- `src/utils/counter.ts` (the four pure counter utility functions);
- the coverage-merge shell script (staging of per-producer coverage files,
  invocation of the external merge and report tools, cleanup, exit status).

The external tools `nyc merge` and `nyc report` are not part of this
repository; their combination rule is modelled from the specification's data
model (union of files; per-location hit counts summed; a location is covered
iff its hit count is positive).
-/

namespace Counter

/-- `incrementCounter` from `src/utils/counter.ts`: `return currentCount + 1`. -/
def incrementCounter (currentCount : Int) : Int :=
  currentCount + 1

/-- `resetCounter` from `src/utils/counter.ts`: `return 0`. -/
def resetCounter : Int :=
  0

/-- `formatCount` from `src/utils/counter.ts`: the template literal
`count is ${count}` (braces appear only in the TypeScript source). -/
def formatCount (count : Int) : String :=
  "count is " ++ toString count

/-- `isEvenCount` from `src/utils/counter.ts`: `return count % 2 === 0`.
JavaScript's `%` on integers truncates toward zero (the remainder takes the
sign of the dividend), which is `Int.tmod` in Lean. -/
def isEvenCount (count : Int) : Bool :=
  Int.tmod count 2 == 0

end Counter

namespace Coverage

/-- Per-file coverage counters, per the spec's data model: for each of the
four kinds (statements, branches, functions, lines) a list of per-location
hit counts, indexed by location id. A location is covered iff its hit count
is positive; the total is the number of locations. -/
structure FileCov where
  s : List Nat
  b : List Nat
  f : List Nat
  l : List Nat
deriving DecidableEq, Repr

/-- A coverage record set: an association list from source-file path to its
per-file counters (the in-memory form of a `coverage-final.json`). -/
abbrev CovData := List (String × FileCov)

/-- Number of covered locations in a hit-count list. -/
def coveredCount (hits : List Nat) : Nat :=
  (hits.filter (fun h => 0 < h)).length

/-- Total number of locations in a hit-count list. -/
def totalCount (hits : List Nat) : Nat :=
  hits.length

/-- Coverage percentage (as a rational in `[0,1]`). -/
def pctQ (hits : List Nat) : ℚ :=
  (coveredCount hits : ℚ) / (totalCount hits : ℚ)

/-- Modelled from the spec: when one file appears in two inputs, its
per-location hit counts are summed pointwise. -/
def mergeHits (xs ys : List Nat) : List Nat :=
  List.zipWith (· + ·) xs ys

/-- Modelled from the spec: merging the counters of one file present in both
inputs sums hit counts per location, kind by kind. -/
def mergeFileCov (a b : FileCov) : FileCov :=
  ⟨mergeHits a.s b.s, mergeHits a.b b.b, mergeHits a.f b.f, mergeHits a.l b.l⟩

/-- First-match lookup of a source-file path in a coverage record set. -/
def lookupCov (m : CovData) (k : String) : Option FileCov :=
  match m with
  | [] => none
  | (k2, v) :: rest => if k2 = k then some v else lookupCov rest k

/-- Modelled from the spec: the merged record set is the union of the two
file sets; a file present in both inputs gets its per-location hit counts
summed (`mergeFileCov`), a file present in only one input keeps its counters
unchanged. -/
def mergeCov (a b : CovData) : CovData :=
  a.map (fun p =>
    match lookupCov b p.1 with
    | some w => (p.1, mergeFileCov p.2 w)
    | none => p) ++
  b.filter (fun p => (lookupCov a p.1).isNone)

/-- Modelled from the spec: merging a list of staged record sets,
left to right, starting from the empty set. -/
def mergeAll (inputs : List CovData) : CovData :=
  inputs.foldl mergeCov []

/-- Aggregate statement counters of a record set: total covered statement
locations and total statement locations, summed over all files. -/
def aggStatements (d : CovData) : Nat × Nat :=
  (d.foldl (fun acc p => acc + coveredCount p.2.s) 0,
   d.foldl (fun acc p => acc + totalCount p.2.s) 0)

/-- Do two hit-count lists cover disjoint location sets (no location hit in
both)? -/
def hitsDisjoint (xs ys : List Nat) : Bool :=
  (List.zipWith min xs ys).all (fun h => h == 0)

/-- The covered-location set of `zs` is the union of those of `xs` and
`ys`: location `i` is covered in `zs` iff it is covered in `xs` or in `ys`
(locations beyond the end count as uncovered). -/
def coveredUnion (xs ys zs : List Nat) : Prop :=
  ∀ i : Nat, 0 < zs.getD i 0 ↔ (0 < xs.getD i 0 ∨ 0 < ys.getD i 0)

/-- Example input from the spec's end-to-end scenario: a run covering only
`src/utils/counter.ts` with statements 5/5. -/
def exCounterData : CovData :=
  [("src/utils/counter.ts", ⟨[1, 1, 1, 2, 1], [], [], []⟩)]

/-- Example input from the spec's end-to-end scenario: a run covering only
`src/App.tsx` with statements 8/10. -/
def exAppData : CovData :=
  [("src/App.tsx", ⟨[1, 1, 1, 1, 0, 1, 1, 1, 1, 0], [], [], []⟩)]

end Coverage

namespace Pipeline

open Coverage

/-- Content of a file in the modelled filesystem: a structurally valid
coverage-data file, a structurally invalid (malformed) one, or a rendered
report page carrying the record set it renders. -/
inductive FileData where
  | cov (d : CovData)
  | malformed
  | report (d : CovData)
deriving DecidableEq, Repr

/-- The filesystem as an association list from path to file content. -/
abbrev FS := List (String × FileData)

/-- Read the file at a path (first match). -/
def readF (fs : FS) (p : String) : Option FileData :=
  match fs with
  | [] => none
  | (q, d) :: rest => if q = p then some d else readF rest p

/-- Remove the file at a path. -/
def removeF (fs : FS) (p : String) : FS :=
  fs.filter (fun e => if e.1 = p then false else true)

/-- Write a file, replacing any previous file at that path. New files go to
the end of the list, matching directory-scan order (alphabetical staging
names are created in alphabetical order by the script). -/
def writeF (fs : FS) (p : String) (d : FileData) : FS :=
  removeF fs p ++ [(p, d)]

/-- Is `pre` a prefix of the character list `s`? -/
def listStarts : List Char → List Char → Bool
  | [], _ => true
  | _ :: _, [] => false
  | a :: as, b :: bs => a == b && listStarts as bs

/-- Is `pre` a string prefix of `s`? -/
def strStarts (s pre : String) : Bool :=
  listStarts pre.toList s.toList

/-- Is the path `p` outside the directory `dir` (neither the entry `dir`
itself nor under `dir/`)? -/
def outsideDir (dir p : String) : Bool :=
  !(strStarts p (dir ++ "/")) && !(p == dir)

/-- `rm -rf dir`: remove the entry at `dir` itself and every entry whose
path lies under `dir/`. -/
def removeDir (fs : FS) (dir : String) : FS :=
  fs.filter (fun e => outsideDir dir e.1)

/-- `REPORTS_FOLDER=".coverage-data"` in the merge script. -/
def REPORTS_FOLDER : String := ".coverage-data"

/-- `NYC_FOLDER=".nyc_output"` in the merge script. -/
def NYC_FOLDER : String := ".nyc_output"

/-- `FINAL_OUTPUT_FOLDER=".coverage-html"` in the merge script. -/
def FINAL_OUTPUT_FOLDER : String := ".coverage-html"

/-- Original path of the Cypress producer's coverage data. -/
def cypressSrc : String := ".coverage-data/cypress/coverage-final.json"

/-- Staged (renamed) path of the Cypress coverage data. -/
def cypressDst : String := ".coverage-data/coverage-cypress.json"

/-- Original path of the Vitest producer's coverage data. -/
def vitestSrc : String := ".coverage-data/vitest/coverage-final.json"

/-- Staged (renamed) path of the Vitest coverage data. -/
def vitestDst : String := ".coverage-data/coverage-vitest.json"

/-- Path where the external merge tool writes its result (`coverage.json`
in the invocation directory). -/
def coverageJson : String := "coverage.json"

/-- Path of the consolidated merge result inside the nyc workspace. -/
def outJson : String := ".nyc_output/out.json"

/-- Path of the root page of the rendered browsable report. -/
def indexHtml : String := ".coverage-html/index.html"

/-- Does the path `p` point at a file lying directly in the reports folder
(no further `/` in the remainder of the path)? These are what the external
merge tool reads. -/
def stagedPred (p : String) : Bool :=
  strStarts p (REPORTS_FOLDER ++ "/") &&
  !((p.drop (REPORTS_FOLDER.length + 1)).toList.contains '/')

/-- The files lying directly in the reports folder. -/
def stagedInputs (fs : FS) : List FileData :=
  (fs.filter (fun e => stagedPred e.1)).map (fun e => e.2)

/-- Does a file fail structural parsing? -/
def isMalformedF : FileData → Bool
  | FileData.malformed => true
  | _ => false

/-- Modelled from the spec: `npx nyc merge` (an external tool, not in this
repository). It reads every file directly in the given folder; if any fails
structural parsing it errors (returns `none`), otherwise it writes the merged
record set; with zero inputs it succeeds with an empty record set. -/
def nycMerge (inputs : List FileData) : Option CovData :=
  if inputs.any isMalformedF then none
  else
    some (mergeAll (inputs.filterMap (fun d =>
      match d with
      | FileData.cov c => some c
      | _ => none)))

/-- Modelled from the spec: `npx nyc report` (an external tool, not in this
repository). It reads the consolidated data at `.nyc_output/out.json`;
no data present renders an empty/all-zero report, structurally valid data
renders that data, malformed data is a render failure (returns `none`). -/
def nycReport (fs : FS) : Option CovData :=
  match readF fs outJson with
  | none => some []
  | some (FileData.cov d) => some d
  | some _ => none

/-- Result of one invocation of the merge script: final filesystem, echoed
log lines, exit status of the external merge step, exit status of the
external report step, and the script's own exit status. -/
structure RunResult where
  fs : FS
  log : List String
  mergeExit : Nat
  reportExit : Nat
  exitStatus : Nat
deriving DecidableEq, Repr

/-- Script lines 13-17: `rm -rf` and `mkdir -p` for the nyc workspace and
the final output folder (directories are implicit in the model, so only the
removals are visible). -/
def recreateDirs (fs : FS) : FS :=
  removeDir (removeDir fs NYC_FOLDER) FINAL_OUTPUT_FOLDER

/-- Script lines 21-33, one producer: if the producer's
`coverage-final.json` exists, `mv` it to the flat staging name and echo the
found message, else echo the warning. -/
def stageProducer (src dst okMsg warnMsg : String) (fs : FS) : FS × List String :=
  match readF fs src with
  | some d => (writeF (removeF fs src) dst d, [okMsg])
  | none => (fs, [warnMsg])

/-- Script line 37: `npx nyc merge "$REPORTS_FOLDER"`, which writes
`coverage.json` on success; the second component is the step's exit
status. -/
def mergeStage (fs : FS) : FS × Nat :=
  match nycMerge (stagedInputs fs) with
  | some d => (writeF fs coverageJson (FileData.cov d), 0)
  | none => (fs, 1)

/-- Script line 38: `mv coverage.json "$NYC_FOLDER/out.json"`; if
`coverage.json` does not exist the `mv` fails and the script continues. -/
def mvStage (fs : FS) : FS :=
  match readF fs coverageJson with
  | some d => writeF (removeF fs coverageJson) outJson d
  | none => fs

/-- Script line 42: `npx nyc report` into the final output folder; the
second component is the step's exit status. -/
def reportStage (fs : FS) : FS × Nat :=
  match nycReport fs with
  | some d => (writeF fs indexHtml (FileData.report d), 0)
  | none => (fs, 1)

/-- Script lines 45-46: `rm -rf` of the nyc workspace and of the reports
folder. -/
def cleanupStage (fs : FS) : FS :=
  removeDir (removeDir fs NYC_FOLDER) REPORTS_FOLDER

/-- The merge script (the repository's `merge-coverage.sh`), step by step:
recreate the nyc workspace and the final output folder; for each producer
(cypress, then vitest) move its `coverage-final.json` into the flat staging
name if present, else echo a warning; run the external merge over the
reports folder and move `coverage.json` into the nyc workspace; run the
external report into the final output folder; remove the nyc workspace and
the reports folder; echo the final message. The script sets no error mode,
so every step runs unconditionally and the script's exit status is that of
the final `echo`, which is `0`. -/
def runMergeScript (fs0 : FS) : RunResult :=
  let s1 := recreateDirs fs0
  let c := stageProducer cypressSrc cypressDst
    "✅ Found Cypress coverage data" "⚠️  No Cypress coverage data found" s1
  let v := stageProducer vitestSrc vitestDst
    "✅ Found Vitest coverage data" "⚠️  No Vitest coverage data found" c.1
  let m := mergeStage v.1
  let mv := mvStage m.1
  let r := reportStage mv
  let fin := cleanupStage r.1
  { fs := fin
    log := ["🔄 Merging coverage reports..."] ++ c.2 ++ v.2 ++
           ["🔀 Merging coverage data...", "📊 Generating coverage reports...",
            "✅ Coverage report generated at: " ++ FINAL_OUTPUT_FOLDER ++ "/index.html"]
    mergeExit := m.2
    reportExit := r.2
    exitStatus := 0 }

/-- Initial filesystem holding the optional per-producer inputs at their
producer-specific paths. -/
def mkInitFS : Option CovData → Option CovData → FS
  | some a, some b => [(cypressSrc, FileData.cov a), (vitestSrc, FileData.cov b)]
  | some a, none => [(cypressSrc, FileData.cov a)]
  | none, some b => [(vitestSrc, FileData.cov b)]
  | none, none => []

/-- The record set rendered into the browsable report of a run, if the
report page exists. -/
def reportData (r : RunResult) : Option CovData :=
  match readF r.fs indexHtml with
  | some (FileData.report d) => some d
  | _ => none

end Pipeline

namespace Coverage

@[simp] theorem mergeCov_nil (a : CovData) : mergeCov [] a = a := by
  simp [mergeCov, lookupCov]

end Coverage

namespace Pipeline

open Coverage

@[simp] theorem pathNe_facts :
    vitestSrc ≠ cypressSrc ∧ cypressDst ≠ vitestSrc ∧
    vitestSrc ≠ cypressDst ∧ cypressDst ≠ vitestDst ∧
    cypressDst ≠ coverageJson ∧ vitestDst ≠ coverageJson ∧
    cypressDst ≠ outJson ∧ vitestDst ≠ outJson ∧
    cypressDst ≠ indexHtml ∧ vitestDst ≠ indexHtml ∧
    outJson ≠ indexHtml ∧ cypressSrc ≠ vitestSrc ∧
    coverageJson ≠ outJson ∧ indexHtml ≠ cypressSrc ∧
    indexHtml ≠ vitestSrc ∧ indexHtml ≠ coverageJson := by
  decide

@[simp] theorem outsideDir_nyc :
    outsideDir NYC_FOLDER cypressSrc = true ∧
    outsideDir NYC_FOLDER vitestSrc = true ∧
    outsideDir NYC_FOLDER cypressDst = true ∧
    outsideDir NYC_FOLDER vitestDst = true ∧
    outsideDir NYC_FOLDER coverageJson = true ∧
    outsideDir NYC_FOLDER outJson = false ∧
    outsideDir NYC_FOLDER indexHtml = true := by
  decide

@[simp] theorem outsideDir_final :
    outsideDir FINAL_OUTPUT_FOLDER cypressSrc = true ∧
    outsideDir FINAL_OUTPUT_FOLDER vitestSrc = true ∧
    outsideDir FINAL_OUTPUT_FOLDER cypressDst = true ∧
    outsideDir FINAL_OUTPUT_FOLDER vitestDst = true ∧
    outsideDir FINAL_OUTPUT_FOLDER coverageJson = true ∧
    outsideDir FINAL_OUTPUT_FOLDER outJson = true ∧
    outsideDir FINAL_OUTPUT_FOLDER indexHtml = false := by
  decide

@[simp] theorem outsideDir_reports :
    outsideDir REPORTS_FOLDER cypressSrc = false ∧
    outsideDir REPORTS_FOLDER vitestSrc = false ∧
    outsideDir REPORTS_FOLDER cypressDst = false ∧
    outsideDir REPORTS_FOLDER vitestDst = false ∧
    outsideDir REPORTS_FOLDER coverageJson = true ∧
    outsideDir REPORTS_FOLDER outJson = true ∧
    outsideDir REPORTS_FOLDER indexHtml = true := by
  decide

@[simp] theorem stagedPred_facts :
    stagedPred cypressSrc = false ∧
    stagedPred vitestSrc = false ∧
    stagedPred cypressDst = true ∧
    stagedPred vitestDst = true ∧
    stagedPred coverageJson = false ∧
    stagedPred outJson = false ∧
    stagedPred indexHtml = false := by
  decide

/-- Running the script with both producer files present: both get staged,
the external merge combines them, and only the rendered report survives. -/
theorem runScript_both (a b : CovData) :
    runMergeScript (mkInitFS (some a) (some b)) =
      { fs := [(indexHtml, FileData.report (mergeCov a b))],
        log := ["🔄 Merging coverage reports...", "✅ Found Cypress coverage data",
                "✅ Found Vitest coverage data", "🔀 Merging coverage data...",
                "📊 Generating coverage reports...",
                "✅ Coverage report generated at: .coverage-html/index.html"],
        mergeExit := 0, reportExit := 0, exitStatus := 0 } := by
  have h1 : recreateDirs (mkInitFS (some a) (some b)) =
      [(cypressSrc, FileData.cov a), (vitestSrc, FileData.cov b)] := by
    simp [recreateDirs, mkInitFS, removeDir]
  have h2 : stageProducer cypressSrc cypressDst
      "✅ Found Cypress coverage data" "⚠️  No Cypress coverage data found"
      [(cypressSrc, FileData.cov a), (vitestSrc, FileData.cov b)] =
      ([(vitestSrc, FileData.cov b), (cypressDst, FileData.cov a)],
       ["✅ Found Cypress coverage data"]) := by
    simp [stageProducer, readF, writeF, removeF]
  have h3 : stageProducer vitestSrc vitestDst
      "✅ Found Vitest coverage data" "⚠️  No Vitest coverage data found"
      [(vitestSrc, FileData.cov b), (cypressDst, FileData.cov a)] =
      ([(cypressDst, FileData.cov a), (vitestDst, FileData.cov b)],
       ["✅ Found Vitest coverage data"]) := by
    simp [stageProducer, readF, writeF, removeF]
  have h4 : mergeStage [(cypressDst, FileData.cov a), (vitestDst, FileData.cov b)] =
      ([(cypressDst, FileData.cov a), (vitestDst, FileData.cov b),
        (coverageJson, FileData.cov (mergeCov a b))], 0) := by
    simp [mergeStage, stagedInputs, nycMerge, isMalformedF, mergeAll, writeF, removeF]
  have h5 : mvStage [(cypressDst, FileData.cov a), (vitestDst, FileData.cov b),
        (coverageJson, FileData.cov (mergeCov a b))] =
      [(cypressDst, FileData.cov a), (vitestDst, FileData.cov b),
       (outJson, FileData.cov (mergeCov a b))] := by
    simp [mvStage, readF, writeF, removeF]
  have h6 : reportStage [(cypressDst, FileData.cov a), (vitestDst, FileData.cov b),
        (outJson, FileData.cov (mergeCov a b))] =
      ([(cypressDst, FileData.cov a), (vitestDst, FileData.cov b),
        (outJson, FileData.cov (mergeCov a b)),
        (indexHtml, FileData.report (mergeCov a b))], 0) := by
    simp [reportStage, nycReport, readF, writeF, removeF]
  have h7 : cleanupStage [(cypressDst, FileData.cov a), (vitestDst, FileData.cov b),
        (outJson, FileData.cov (mergeCov a b)),
        (indexHtml, FileData.report (mergeCov a b))] =
      [(indexHtml, FileData.report (mergeCov a b))] := by
    simp [cleanupStage, removeDir]
  simp only [runMergeScript, h1, h2, h3, h4, h5, h6, h7]
  simp [FINAL_OUTPUT_FOLDER]

/-- Running the script with only the Cypress producer file present. -/
theorem runScript_left (a : CovData) :
    runMergeScript (mkInitFS (some a) none) =
      { fs := [(indexHtml, FileData.report a)],
        log := ["🔄 Merging coverage reports...", "✅ Found Cypress coverage data",
                "⚠️  No Vitest coverage data found", "🔀 Merging coverage data...",
                "📊 Generating coverage reports...",
                "✅ Coverage report generated at: .coverage-html/index.html"],
        mergeExit := 0, reportExit := 0, exitStatus := 0 } := by
  have h1 : recreateDirs (mkInitFS (some a) none) = [(cypressSrc, FileData.cov a)] := by
    simp [recreateDirs, mkInitFS, removeDir]
  have h2 : stageProducer cypressSrc cypressDst
      "✅ Found Cypress coverage data" "⚠️  No Cypress coverage data found"
      [(cypressSrc, FileData.cov a)] =
      ([(cypressDst, FileData.cov a)], ["✅ Found Cypress coverage data"]) := by
    simp [stageProducer, readF, writeF, removeF]
  have h3 : stageProducer vitestSrc vitestDst
      "✅ Found Vitest coverage data" "⚠️  No Vitest coverage data found"
      [(cypressDst, FileData.cov a)] =
      ([(cypressDst, FileData.cov a)], ["⚠️  No Vitest coverage data found"]) := by
    simp [stageProducer, readF, writeF, removeF]
  have h4 : mergeStage [(cypressDst, FileData.cov a)] =
      ([(cypressDst, FileData.cov a), (coverageJson, FileData.cov a)], 0) := by
    simp [mergeStage, stagedInputs, nycMerge, isMalformedF, mergeAll, writeF, removeF]
  have h5 : mvStage [(cypressDst, FileData.cov a), (coverageJson, FileData.cov a)] =
      [(cypressDst, FileData.cov a), (outJson, FileData.cov a)] := by
    simp [mvStage, readF, writeF, removeF]
  have h6 : reportStage [(cypressDst, FileData.cov a), (outJson, FileData.cov a)] =
      ([(cypressDst, FileData.cov a), (outJson, FileData.cov a),
        (indexHtml, FileData.report a)], 0) := by
    simp [reportStage, nycReport, readF, writeF, removeF]
  have h7 : cleanupStage [(cypressDst, FileData.cov a), (outJson, FileData.cov a),
        (indexHtml, FileData.report a)] =
      [(indexHtml, FileData.report a)] := by
    simp [cleanupStage, removeDir]
  simp only [runMergeScript, h1, h2, h3, h4, h5, h6, h7]
  simp [FINAL_OUTPUT_FOLDER]

/-- Running the script with only the Vitest producer file present. -/
theorem runScript_right (b : CovData) :
    runMergeScript (mkInitFS none (some b)) =
      { fs := [(indexHtml, FileData.report b)],
        log := ["🔄 Merging coverage reports...", "⚠️  No Cypress coverage data found",
                "✅ Found Vitest coverage data", "🔀 Merging coverage data...",
                "📊 Generating coverage reports...",
                "✅ Coverage report generated at: .coverage-html/index.html"],
        mergeExit := 0, reportExit := 0, exitStatus := 0 } := by
  have h1 : recreateDirs (mkInitFS none (some b)) = [(vitestSrc, FileData.cov b)] := by
    simp [recreateDirs, mkInitFS, removeDir]
  have h2 : stageProducer cypressSrc cypressDst
      "✅ Found Cypress coverage data" "⚠️  No Cypress coverage data found"
      [(vitestSrc, FileData.cov b)] =
      ([(vitestSrc, FileData.cov b)], ["⚠️  No Cypress coverage data found"]) := by
    simp [stageProducer, readF, writeF, removeF]
  have h3 : stageProducer vitestSrc vitestDst
      "✅ Found Vitest coverage data" "⚠️  No Vitest coverage data found"
      [(vitestSrc, FileData.cov b)] =
      ([(vitestDst, FileData.cov b)], ["✅ Found Vitest coverage data"]) := by
    simp [stageProducer, readF, writeF, removeF]
  have h4 : mergeStage [(vitestDst, FileData.cov b)] =
      ([(vitestDst, FileData.cov b), (coverageJson, FileData.cov b)], 0) := by
    simp [mergeStage, stagedInputs, nycMerge, isMalformedF, mergeAll, writeF, removeF]
  have h5 : mvStage [(vitestDst, FileData.cov b), (coverageJson, FileData.cov b)] =
      [(vitestDst, FileData.cov b), (outJson, FileData.cov b)] := by
    simp [mvStage, readF, writeF, removeF]
  have h6 : reportStage [(vitestDst, FileData.cov b), (outJson, FileData.cov b)] =
      ([(vitestDst, FileData.cov b), (outJson, FileData.cov b),
        (indexHtml, FileData.report b)], 0) := by
    simp [reportStage, nycReport, readF, writeF, removeF]
  have h7 : cleanupStage [(vitestDst, FileData.cov b), (outJson, FileData.cov b),
        (indexHtml, FileData.report b)] =
      [(indexHtml, FileData.report b)] := by
    simp [cleanupStage, removeDir]
  simp only [runMergeScript, h1, h2, h3, h4, h5, h6, h7]
  simp [FINAL_OUTPUT_FOLDER]

/-- Running the script on a filesystem holding only a previously rendered
report page (the durable state after a successful run): the report is
recreated empty, both producers are reported absent, and the run still
exits with status zero. -/
theorem runScript_reportOnly (z : FileData) :
    runMergeScript [(indexHtml, z)] =
      { fs := [(indexHtml, FileData.report [])],
        log := ["🔄 Merging coverage reports...", "⚠️  No Cypress coverage data found",
                "⚠️  No Vitest coverage data found", "🔀 Merging coverage data...",
                "📊 Generating coverage reports...",
                "✅ Coverage report generated at: .coverage-html/index.html"],
        mergeExit := 0, reportExit := 0, exitStatus := 0 } := by
  have h1 : recreateDirs [(indexHtml, z)] = [] := by
    simp [recreateDirs, removeDir]
  simp only [runMergeScript, h1]
  simp [stageProducer, readF, writeF, removeF, mergeStage, stagedInputs, nycMerge,
        isMalformedF, mergeAll, mvStage, nycReport, reportStage, cleanupStage,
        removeDir, FINAL_OUTPUT_FOLDER]

end Pipeline

namespace Coverage

theorem lookupCov_eq_none_iff (m : CovData) (k : String) :
    lookupCov m k = none ↔ k ∉ m.map Prod.fst := by
  induction m with
  | nil => simp [lookupCov]
  | cons p rest ih =>
    rcases p with ⟨k2, v⟩
    by_cases h : k2 = k
    · subst h; simp [lookupCov]
    · simp [lookupCov, h, Ne.symm h, ih]

theorem lookupCov_isSome_of_mem {m : CovData} {p : String × FileCov}
    (hp : p ∈ m) : (lookupCov m p.1).isSome = true := by
  induction m with
  | nil => simp at hp
  | cons q rest ih =>
    rcases q with ⟨k2, v⟩
    by_cases h : k2 = p.1
    · simp [lookupCov, h]
    · rcases List.mem_cons.mp hp with h1 | h1
      · subst h1; simp at h
      · simpa [lookupCov, h] using ih h1

theorem lookupCov_append_left {a : CovData} (b : CovData) {k : String}
    {v : FileCov} (h : lookupCov a k = some v) :
    lookupCov (a ++ b) k = some v := by
  induction a with
  | nil => simp [lookupCov] at h
  | cons p rest ih =>
    rcases p with ⟨k2, w⟩
    by_cases hk : k2 = k
    · subst hk
      simp [lookupCov] at h ⊢
      exact h
    · simp [lookupCov, hk] at h ⊢
      exact ih h

theorem lookupCov_append_right {a : CovData} (b : CovData) {k : String}
    (h : lookupCov a k = none) :
    lookupCov (a ++ b) k = lookupCov b k := by
  induction a with
  | nil => simp
  | cons p rest ih =>
    rcases p with ⟨k2, w⟩
    by_cases hk : k2 = k
    · simp [lookupCov, hk] at h
    · simp [lookupCov, hk] at h ⊢
      exact ih h

/-- Under key-disjointness the merged record set is literally the
concatenation of the two inputs. -/
theorem mergeCov_disjoint_eq_append {a b : CovData}
    (hd : ∀ k ∈ a.map Prod.fst, k ∉ b.map Prod.fst) :
    mergeCov a b = a ++ b := by
  unfold mergeCov
  have hmap : a.map (fun p =>
      match lookupCov b p.1 with
      | some w => (p.1, mergeFileCov p.2 w)
      | none => p) = a := by
    have : ∀ p ∈ a, (match lookupCov b p.1 with
        | some w => (p.1, mergeFileCov p.2 w)
        | none => p) = id p := by
      intro p hp
      have hkb : lookupCov b p.1 = none :=
        (lookupCov_eq_none_iff b p.1).mpr
          (hd p.1 (List.mem_map_of_mem Prod.fst hp))
      simp [hkb]
    rw [List.map_congr_left this, List.map_id]
  have hfil : b.filter (fun p => (lookupCov a p.1).isNone) = b := by
    rw [List.filter_eq_self]
    intro p hp
    have hka : p.1 ∉ a.map Prod.fst := by
      intro hmem
      exact hd p.1 hmem (List.mem_map_of_mem Prod.fst hp)
    have : lookupCov a p.1 = none := (lookupCov_eq_none_iff a p.1).mpr hka
    simp [this]
  rw [hmap, hfil]

theorem lookupCov_mem_nodup {a : CovData} {p : String × FileCov}
    (hnd : (a.map Prod.fst).Nodup) (hp : p ∈ a) :
    lookupCov a p.1 = some p.2 := by
  induction a with
  | nil => simp at hp
  | cons q rest ih =>
    rcases q with ⟨k2, v⟩
    rw [List.map_cons] at hnd
    rcases List.nodup_cons.mp hnd with ⟨hk2, hrest⟩
    rcases List.mem_cons.mp hp with h1 | h1
    · subst h1; simp [lookupCov]
    · have hne : k2 ≠ p.1 := by
        intro he
        apply hk2
        have : p.1 ∈ rest.map Prod.fst := List.mem_map_of_mem Prod.fst h1
        rwa [← he] at this
      simpa [lookupCov, hne] using ih hrest h1

/-- Self-merge: merging a record set with an identical copy doubles each
file's hit counts and keeps the file list. -/
theorem mergeCov_self {a : CovData} (hnd : (a.map Prod.fst).Nodup) :
    mergeCov a a = a.map (fun p => (p.1, mergeFileCov p.2 p.2)) := by
  unfold mergeCov
  have hmap : a.map (fun p =>
      match lookupCov a p.1 with
      | some w => (p.1, mergeFileCov p.2 w)
      | none => p) = a.map (fun p => (p.1, mergeFileCov p.2 p.2)) := by
    apply List.map_congr_left
    intro p hp
    simp [lookupCov_mem_nodup hnd hp]
  have hfil : a.filter (fun p => (lookupCov a p.1).isNone) = [] := by
    rw [List.filter_eq_nil_iff]
    intro p hp
    have := lookupCov_isSome_of_mem hp
    cases h : lookupCov a p.1 with
    | none => rw [h] at this; simp at this
    | some w => simp [h]
  rw [hmap, hfil, List.append_nil]

theorem lookupCov_map_self_merge (a : CovData) (k : String) :
    lookupCov (a.map (fun p => (p.1, mergeFileCov p.2 p.2))) k =
      (lookupCov a k).map (fun v => mergeFileCov v v) := by
  induction a with
  | nil => simp [lookupCov]
  | cons q rest ih =>
    rcases q with ⟨k2, v⟩
    by_cases h : k2 = k
    · simp [lookupCov, h]
    · simpa [lookupCov, h] using ih

theorem coveredCount_nil : coveredCount [] = 0 := rfl

theorem coveredCount_cons (h : Nat) (t : List Nat) :
    coveredCount (h :: t) = (if 0 < h then 1 else 0) + coveredCount t := by
  by_cases h0 : 0 < h <;> simp [coveredCount, List.filter_cons, h0, Nat.add_comm]

theorem mergeHits_cons (x y : Nat) (xs ys : List Nat) :
    mergeHits (x :: xs) (y :: ys) = (x + y) :: mergeHits xs ys := rfl

theorem mergeHits_nil_left (ys : List Nat) : mergeHits [] ys = [] := rfl

theorem mergeHits_nil_right (xs : List Nat) : mergeHits xs [] = [] := by
  simp [mergeHits]

/-- The merged hit list covers exactly the union of the two covered-location
sets. -/
theorem coveredUnion_mergeHits (xs : List Nat) :
    ∀ ys : List Nat, xs.length = ys.length →
      coveredUnion xs ys (mergeHits xs ys) := by
  induction xs with
  | nil =>
    intro ys hlen i
    cases ys with
    | nil => simp [mergeHits]
    | cons y yt => simp at hlen
  | cons x xt ih =>
    intro ys hlen i
    cases ys with
    | nil => simp at hlen
    | cons y yt =>
      cases i with
      | zero =>
        simp only [mergeHits_cons, List.getD_cons_zero]
        omega
      | succ j =>
        simpa [mergeHits_cons] using ih yt (by simpa using hlen) j

/-- Disjoint covered sets: the merged covered count is the sum of the two
covered counts. -/
theorem coveredCount_mergeHits_disjoint (xs : List Nat) :
    ∀ ys : List Nat, xs.length = ys.length → hitsDisjoint xs ys = true →
      coveredCount (mergeHits xs ys) = coveredCount xs + coveredCount ys := by
  induction xs with
  | nil =>
    intro ys hlen _
    cases ys with
    | nil => rfl
    | cons y yt => simp at hlen
  | cons x xt ih =>
    intro ys hlen hd
    cases ys with
    | nil => simp at hlen
    | cons y yt =>
      have hd' : min x y = 0 ∧ hitsDisjoint xt yt = true := by
        simpa [hitsDisjoint] using hd
      have hmin : x = 0 ∨ y = 0 := by omega
      have hrec := ih yt (by simpa using hlen) hd'.2
      rw [mergeHits_cons, coveredCount_cons, coveredCount_cons,
          coveredCount_cons, hrec]
      split_ifs <;> omega

/-- Merging can only add covered locations (left input). -/
theorem coveredCount_le_mergeHits_left (xs : List Nat) :
    ∀ ys : List Nat, xs.length = ys.length →
      coveredCount xs ≤ coveredCount (mergeHits xs ys) := by
  induction xs with
  | nil => intro ys _; simp [mergeHits_nil_left]
  | cons x xt ih =>
    intro ys hlen
    cases ys with
    | nil => simp at hlen
    | cons y yt =>
      have hrec := ih yt (by simpa using hlen)
      rw [mergeHits_cons, coveredCount_cons, coveredCount_cons]
      split_ifs <;> omega

theorem mergeHits_comm (xs : List Nat) : ∀ ys : List Nat,
    mergeHits xs ys = mergeHits ys xs := by
  induction xs with
  | nil => intro ys; rw [mergeHits_nil_left, mergeHits_nil_right]
  | cons x xt ih =>
    intro ys
    cases ys with
    | nil => rw [mergeHits_nil_left, mergeHits_nil_right]
    | cons y yt => rw [mergeHits_cons, mergeHits_cons, Nat.add_comm, ih]

theorem coveredCount_mergeHits_self (xs : List Nat) :
    coveredCount (mergeHits xs xs) = coveredCount xs := by
  induction xs with
  | nil => rfl
  | cons x xt ih =>
    rw [mergeHits_cons, coveredCount_cons, coveredCount_cons, ih]
    split_ifs <;> omega

theorem totalCount_mergeHits {xs ys : List Nat} (hlen : xs.length = ys.length) :
    totalCount (mergeHits xs ys) = totalCount xs := by
  simp [mergeHits, totalCount, List.length_zipWith, hlen]

/-- Merging cannot lower the coverage percentage (left input). -/
theorem pctQ_le_mergeHits_left {xs ys : List Nat} (hlen : xs.length = ys.length) :
    pctQ xs ≤ pctQ (mergeHits xs ys) := by
  unfold pctQ
  rw [totalCount_mergeHits hlen]
  rcases Nat.eq_zero_or_pos (totalCount xs) with h0 | hpos
  · have hxs : xs = [] := List.length_eq_zero.mp h0
    subst hxs
    simp [mergeHits_nil_left]
  · have hc : (0 : ℚ) < (totalCount xs : ℚ) := by exact_mod_cast hpos
    rw [div_le_div_iff_of_pos_right hc]
    exact_mod_cast coveredCount_le_mergeHits_left xs ys hlen

theorem pctQ_mergeHits_self (xs : List Nat) :
    pctQ (mergeHits xs xs) = pctQ xs := by
  unfold pctQ
  rw [coveredCount_mergeHits_self, totalCount_mergeHits rfl]

theorem foldl_add_congr {α : Type} (l : List α) (g h : α → Nat)
    (hx : ∀ x ∈ l, g x = h x) :
    ∀ acc : Nat, l.foldl (fun a x => a + g x) acc = l.foldl (fun a x => a + h x) acc := by
  induction l with
  | nil => intro acc; rfl
  | cons x xt ih =>
    intro acc
    simp only [List.foldl_cons]
    rw [hx x (List.mem_cons_self x xt)]
    exact ih (fun y hy => hx y (List.mem_cons_of_mem x hy)) _

end Coverage

namespace Pipeline

theorem readF_append_left {xs : FS} (ys : FS) {p : String} {d : FileData}
    (h : readF xs p = some d) : readF (xs ++ ys) p = some d := by
  induction xs with
  | nil => simp [readF] at h
  | cons e rest ih =>
    rcases e with ⟨q, v⟩
    by_cases hq : q = p
    · subst hq
      simp [readF] at h ⊢
      exact h
    · simp [readF, hq] at h ⊢
      exact ih h

theorem readF_append_right {xs : FS} (ys : FS) {p : String}
    (h : readF xs p = none) : readF (xs ++ ys) p = readF ys p := by
  induction xs with
  | nil => simp
  | cons e rest ih =>
    rcases e with ⟨q, v⟩
    by_cases hq : q = p
    · simp [readF, hq] at h
    · simp [readF, hq] at h ⊢
      exact ih h

theorem readF_removeF_self (fs : FS) (p : String) :
    readF (removeF fs p) p = none := by
  induction fs with
  | nil => rfl
  | cons e rest ih =>
    rcases e with ⟨q, v⟩
    by_cases hq : q = p
    · simpa [removeF, List.filter_cons, hq] using ih
    · simpa [removeF, readF, List.filter_cons, hq] using ih

theorem readF_removeF_ne (fs : FS) {p q : String} (h : p ≠ q) :
    readF (removeF fs q) p = readF fs p := by
  induction fs with
  | nil => rfl
  | cons e rest ih =>
    rcases e with ⟨r, v⟩
    by_cases hr : r = q
    · subst hr
      simp [removeF, List.filter_cons, readF, Ne.symm h]
      simpa [removeF] using ih
    · by_cases hp : r = p
      · subst hp
        simp [removeF, List.filter_cons, readF, hr]
      · simp [removeF, List.filter_cons, readF, hr, hp]
        simpa [removeF] using ih

theorem readF_writeF_self (fs : FS) (p : String) (d : FileData) :
    readF (writeF fs p d) p = some d := by
  unfold writeF
  rw [readF_append_right _ (readF_removeF_self fs p)]
  simp [readF]

theorem readF_writeF_ne (fs : FS) {p q : String} (d : FileData) (h : p ≠ q) :
    readF (writeF fs q d) p = readF fs p := by
  unfold writeF
  cases hx : readF (removeF fs q) p with
  | some v =>
    rw [readF_append_left _ hx]
    rw [readF_removeF_ne fs h] at hx
    exact hx.symm
  | none =>
    rw [readF_append_right _ hx]
    rw [readF_removeF_ne fs h] at hx
    simp [readF, Ne.symm h]
    exact hx.symm

theorem readF_removeDir_outside (fs : FS) {dir p : String}
    (h : outsideDir dir p = true) :
    readF (removeDir fs dir) p = readF fs p := by
  induction fs with
  | nil => rfl
  | cons e rest ih =>
    rcases e with ⟨q, v⟩
    by_cases hq : q = p
    · subst hq
      simp [removeDir, List.filter_cons, h, readF]
    · cases hk : outsideDir dir q with
      | true =>
        simp [removeDir, List.filter_cons, hk, readF, hq]
        simpa [removeDir] using ih
      | false =>
        simp [removeDir, List.filter_cons, hk, readF, hq]
        simpa [removeDir] using ih

theorem readF_removeDir_inside (fs : FS) {dir p : String}
    (h : outsideDir dir p = false) :
    readF (removeDir fs dir) p = none := by
  induction fs with
  | nil => rfl
  | cons e rest ih =>
    rcases e with ⟨q, v⟩
    cases hk : outsideDir dir q with
    | true =>
      have hq : q ≠ p := by
        intro he
        rw [he, h] at hk
        cases hk
      simp [removeDir, List.filter_cons, hk, readF, hq]
      simpa [removeDir] using ih
    | false =>
      simp [removeDir, List.filter_cons, hk]
      simpa [removeDir] using ih

end Pipeline

namespace Counter

/-- `isEvenCount` answers exactly divisibility by two, on all integers. -/
theorem isEvenCount_iff_dvd (n : Int) : isEvenCount n = true ↔ 2 ∣ n := by
  unfold isEvenCount
  rw [beq_iff_eq]
  exact Int.dvd_iff_tmod_eq_zero.symm

theorem isEvenCount_eq_decide (n : Int) : isEvenCount n = decide (2 ∣ n) := by
  rw [Bool.eq_iff_iff, isEvenCount_iff_dvd, decide_eq_true_eq]

end Counter

namespace Pipeline

theorem cleanupStage_removes (fs : FS) :
    readF (cleanupStage fs) cypressDst = none ∧
    readF (cleanupStage fs) vitestDst = none ∧
    readF (cleanupStage fs) outJson = none := by
  unfold cleanupStage
  refine ⟨?_, ?_, ?_⟩
  · exact readF_removeDir_inside _ (by decide)
  · exact readF_removeDir_inside _ (by decide)
  · rw [readF_removeDir_outside _ (by decide)]
    exact readF_removeDir_inside _ (by decide)

theorem cleanupStage_preserves_outside {fs : FS} {p : String}
    (h1 : outsideDir NYC_FOLDER p = true) (h2 : outsideDir REPORTS_FOLDER p = true) :
    readF (cleanupStage fs) p = readF fs p := by
  unfold cleanupStage
  rw [readF_removeDir_outside _ h2, readF_removeDir_outside _ h1]

theorem mvStage_no_coverageJson (fs : FS) :
    readF (mvStage fs) coverageJson = none := by
  unfold mvStage
  cases h : readF fs coverageJson with
  | some d =>
    rw [readF_writeF_ne _ _ (by decide)]
    exact readF_removeF_self _ _
  | none => exact h

theorem reportStage_preserves_coverageJson (fs : FS) :
    readF (reportStage fs).1 coverageJson = readF fs coverageJson := by
  unfold reportStage
  cases h : nycReport fs with
  | some d =>
    simp only [h]
    rw [readF_writeF_ne _ _ (by decide)]
  | none => simp only [h]

theorem runMergeScript_fs (fs0 : FS) :
    (runMergeScript fs0).fs =
      cleanupStage
        (reportStage
          (mvStage
            (mergeStage
              (stageProducer vitestSrc vitestDst
                "✅ Found Vitest coverage data" "⚠️  No Vitest coverage data found"
                (stageProducer cypressSrc cypressDst
                  "✅ Found Cypress coverage data" "⚠️  No Cypress coverage data found"
                  (recreateDirs fs0)).1).1).1)).1 := rfl

theorem runMergeScript_reportExit (fs0 : FS) :
    (runMergeScript fs0).reportExit =
      (reportStage
        (mvStage
          (mergeStage
            (stageProducer vitestSrc vitestDst
              "✅ Found Vitest coverage data" "⚠️  No Vitest coverage data found"
              (stageProducer cypressSrc cypressDst
                "✅ Found Cypress coverage data" "⚠️  No Cypress coverage data found"
                (recreateDirs fs0)).1).1).1)).2 := rfl

end Pipeline

open Coverage Pipeline

/-- C9: for every integer `n`, `isEvenCount (incrementCounter n)` is the
negation of `isEvenCount n` (incrementing flips parity), and
`isEvenCount (resetCounter())` is true. -/
theorem c9_increment_flips_parity (n : Int) :
    Counter.isEvenCount (Counter.incrementCounter n) = !(Counter.isEvenCount n) ∧
    Counter.isEvenCount Counter.resetCounter = true := by
  constructor
  · simp only [Counter.incrementCounter, Counter.isEvenCount_eq_decide]
    by_cases h : 2 ∣ n
    · have h1 : ¬ (2 ∣ (n + 1)) := by omega
      simp [h, h1]
    · have h1 : 2 ∣ (n + 1) := by omega
      simp [h, h1]
  · decide

/-- C10: for every integer `n`, including negatives, `isEvenCount n` is true
iff `n` is divisible by 2; JavaScript's remainder gives `-1 % 2 === -1`, yet
the comparison with 0 still classifies all even integers as even. -/
theorem c10_isEvenCount_iff_divisible (n : Int) :
    (Counter.isEvenCount n = true ↔ 2 ∣ n) ∧
    Int.tmod (-1) 2 = -1 ∧
    Counter.isEvenCount (-1) = false ∧ Counter.isEvenCount (-2) = true ∧
    Counter.isEvenCount 0 = true ∧ Counter.isEvenCount 5 = false :=
  ⟨Counter.isEvenCount_iff_dvd n, by decide, by decide, by decide, by decide, by decide⟩

/-- C3: with neither producer file present, the pipeline still runs the
merge against the empty staging area, exits with status 0, and renders an
empty report instead of failing; both absence warnings are logged. -/
theorem c3_zero_inputs_empty_report :
    (runMergeScript (mkInitFS none none)).exitStatus = 0 ∧
    (runMergeScript (mkInitFS none none)).mergeExit = 0 ∧
    (runMergeScript (mkInitFS none none)).reportExit = 0 ∧
    reportData (runMergeScript (mkInitFS none none)) = some [] ∧
    "⚠️  No Cypress coverage data found" ∈ (runMergeScript (mkInitFS none none)).log ∧
    "⚠️  No Vitest coverage data found" ∈ (runMergeScript (mkInitFS none none)).log := by
  decide

/-- C4: with exactly one producer file present, the pipeline warns about
the absent producer, continues, exits 0, and the rendered report carries
exactly the single present input's record set. -/
theorem c4_single_input_passthrough (A : CovData) :
    ((runMergeScript (mkInitFS (some A) none)).exitStatus = 0 ∧
     "⚠️  No Vitest coverage data found" ∈ (runMergeScript (mkInitFS (some A) none)).log ∧
     reportData (runMergeScript (mkInitFS (some A) none)) = some A) ∧
    ((runMergeScript (mkInitFS none (some A))).exitStatus = 0 ∧
     "⚠️  No Cypress coverage data found" ∈ (runMergeScript (mkInitFS none (some A))).log ∧
     reportData (runMergeScript (mkInitFS none (some A))) = some A) := by
  rw [runScript_left, runScript_right]
  refine ⟨⟨rfl, ?_, ?_⟩, ⟨rfl, ?_, ?_⟩⟩ <;> simp [reportData, readF]

/-- C5: the script has no error mode set and ends in an `echo`, so even when
the external merge step fails on a malformed input the pipeline continues,
produces an empty report from the corrupt run, and exits 0 — not the
non-zero exit the specification requires for a failed merge. -/
theorem c5_merge_failure_still_exits_zero :
    (runMergeScript [(cypressSrc, FileData.malformed)]).mergeExit = 1 ∧
    (runMergeScript [(cypressSrc, FileData.malformed)]).exitStatus = 0 ∧
    (runMergeScript [(cypressSrc, FileData.malformed)]).reportExit = 0 ∧
    reportData (runMergeScript [(cypressSrc, FileData.malformed)]) = some [] := by
  decide

/-- C1: for inputs covering disjoint file sets, the pipeline's merged
report is exactly the union of the two file sets, each file keeping the
counters of the input that contributed it; the spec's end-to-end numbers
(5/5 plus 8/10 giving 13/15 aggregate statements) are checked in the
witness below. -/
theorem c1_disjoint_files_union (A B : CovData)
    (hd : ∀ k ∈ A.map Prod.fst, k ∉ B.map Prod.fst) :
    reportData (runMergeScript (mkInitFS (some A) (some B))) = some (mergeCov A B) ∧
    (mergeCov A B).map Prod.fst = A.map Prod.fst ++ B.map Prod.fst ∧
    (∀ k v, lookupCov A k = some v → lookupCov (mergeCov A B) k = some v) ∧
    (∀ k v, lookupCov B k = some v → lookupCov (mergeCov A B) k = some v) := by
  have hm := mergeCov_disjoint_eq_append hd
  refine ⟨?_, ?_, ?_, ?_⟩
  · rw [runScript_both]
    simp [reportData, readF]
  · rw [hm, List.map_append]
  · intro k v hv
    rw [hm]
    exact lookupCov_append_left B hv
  · intro k v hv
    rw [hm]
    have hkB : k ∈ B.map Prod.fst := by
      by_contra hc
      rw [(lookupCov_eq_none_iff B k).mpr hc] at hv
      cases hv
    have hkA : k ∉ A.map Prod.fst := fun hmem => hd k hmem hkB
    rw [lookupCov_append_right B ((lookupCov_eq_none_iff A k).mpr hkA)]
    exact hv

/-- Witness for C1 at the spec's end-to-end scenario: the two example
inputs cover disjoint file sets, the pipeline reports their merge, and the
aggregate statement counters are 13 covered of 15. -/
theorem c1_disjoint_files_union_witness :
    (∀ k ∈ exCounterData.map Prod.fst, k ∉ exAppData.map Prod.fst) ∧
    reportData (runMergeScript (mkInitFS (some exCounterData) (some exAppData))) =
      some (mergeCov exCounterData exAppData) ∧
    (mergeCov exCounterData exAppData).map Prod.fst =
      exCounterData.map Prod.fst ++ exAppData.map Prod.fst ∧
    aggStatements (mergeCov exCounterData exAppData) = (13, 15) := by
  have h := c1_disjoint_files_union exCounterData exAppData (by decide)
  exact ⟨by decide, h.1, h.2.1, by decide⟩

/-- C6: merging a record set with an identical copy of itself doubles the
per-location hit counts but leaves every per-file and aggregate coverage
percentage identical to the single input's. -/
theorem c6_self_merge_idempotent (A : CovData) (hnd : (A.map Prod.fst).Nodup) :
    reportData (runMergeScript (mkInitFS (some A) (some A))) = some (mergeCov A A) ∧
    (∀ k v, lookupCov A k = some v →
      lookupCov (mergeCov A A) k = some (mergeFileCov v v) ∧
      pctQ (mergeFileCov v v).s = pctQ v.s ∧ pctQ (mergeFileCov v v).b = pctQ v.b ∧
      pctQ (mergeFileCov v v).f = pctQ v.f ∧ pctQ (mergeFileCov v v).l = pctQ v.l) ∧
    aggStatements (mergeCov A A) = aggStatements A := by
  refine ⟨?_, ?_, ?_⟩
  · rw [runScript_both]
    simp [reportData, readF]
  · intro k v hv
    refine ⟨?_, ?_, ?_, ?_, ?_⟩
    · rw [mergeCov_self hnd, lookupCov_map_self_merge, hv]
      rfl
    · exact pctQ_mergeHits_self v.s
    · exact pctQ_mergeHits_self v.b
    · exact pctQ_mergeHits_self v.f
    · exact pctQ_mergeHits_self v.l
  · rw [mergeCov_self hnd]
    unfold aggStatements
    rw [List.foldl_map, List.foldl_map]
    simp only [Prod.mk.injEq]
    constructor
    · exact foldl_add_congr A
        (fun p => coveredCount (mergeFileCov p.2 p.2).s)
        (fun p => coveredCount p.2.s)
        (fun p _ => coveredCount_mergeHits_self p.2.s) 0
    · exact foldl_add_congr A
        (fun p => totalCount (mergeFileCov p.2 p.2).s)
        (fun p => totalCount p.2.s)
        (fun p _ => totalCount_mergeHits rfl) 0

/-- Witness for C6: the example input self-merges to identical per-file and
aggregate coverage. -/
theorem c6_self_merge_idempotent_witness :
    (exCounterData.map Prod.fst).Nodup ∧
    reportData (runMergeScript (mkInitFS (some exCounterData) (some exCounterData))) =
      some (mergeCov exCounterData exCounterData) ∧
    aggStatements (mergeCov exCounterData exCounterData) = aggStatements exCounterData := by
  have h := c6_self_merge_idempotent exCounterData (by decide)
  exact ⟨by decide, h.1, h.2.2⟩

/-- C2: when both inputs cover the same file with equally shaped counters
and disjoint covered-location sets, the pipeline merges them into that
file's pointwise-summed counters, whose covered set is the union of the two
(so each kind's covered count is the sum and the coverage percentage never
drops below either input); the spec's branch example (hit sets 110 and 011
of 3 branches merging to 3/3) is checked as the final conjunct. -/
theorem c2_same_file_union (f : String) (x y : FileCov)
    (hs : x.s.length = y.s.length) (hb : x.b.length = y.b.length)
    (hf : x.f.length = y.f.length) (hl : x.l.length = y.l.length)
    (ds : hitsDisjoint x.s y.s = true) (db : hitsDisjoint x.b y.b = true)
    (df : hitsDisjoint x.f y.f = true) (dl : hitsDisjoint x.l y.l = true) :
    reportData (runMergeScript (mkInitFS (some [(f, x)]) (some [(f, y)]))) =
      some [(f, mergeFileCov x y)] ∧
    coveredUnion x.s y.s (mergeFileCov x y).s ∧
    coveredUnion x.b y.b (mergeFileCov x y).b ∧
    coveredUnion x.f y.f (mergeFileCov x y).f ∧
    coveredUnion x.l y.l (mergeFileCov x y).l ∧
    coveredCount (mergeFileCov x y).s = coveredCount x.s + coveredCount y.s ∧
    coveredCount (mergeFileCov x y).b = coveredCount x.b + coveredCount y.b ∧
    coveredCount (mergeFileCov x y).f = coveredCount x.f + coveredCount y.f ∧
    coveredCount (mergeFileCov x y).l = coveredCount x.l + coveredCount y.l ∧
    pctQ x.s ≤ pctQ (mergeFileCov x y).s ∧ pctQ y.s ≤ pctQ (mergeFileCov x y).s ∧
    pctQ x.b ≤ pctQ (mergeFileCov x y).b ∧ pctQ y.b ≤ pctQ (mergeFileCov x y).b ∧
    pctQ x.f ≤ pctQ (mergeFileCov x y).f ∧ pctQ y.f ≤ pctQ (mergeFileCov x y).f ∧
    pctQ x.l ≤ pctQ (mergeFileCov x y).l ∧ pctQ y.l ≤ pctQ (mergeFileCov x y).l ∧
    (coveredCount (mergeFileCov ⟨[], [1, 1, 0], [], []⟩ ⟨[], [0, 1, 1], [], []⟩).b = 3 ∧
     totalCount (mergeFileCov ⟨[], [1, 1, 0], [], []⟩ ⟨[], [0, 1, 1], [], []⟩).b = 3) := by
  have hmc : mergeCov [(f, x)] [(f, y)] = [(f, mergeFileCov x y)] := by
    simp [mergeCov, lookupCov]
  have hgeR : ∀ (u w : List Nat), u.length = w.length →
      pctQ w ≤ pctQ (mergeHits u w) := by
    intro u w hlen
    rw [mergeHits_comm]
    exact pctQ_le_mergeHits_left hlen.symm
  refine ⟨?_, coveredUnion_mergeHits x.s y.s hs, coveredUnion_mergeHits x.b y.b hb,
    coveredUnion_mergeHits x.f y.f hf, coveredUnion_mergeHits x.l y.l hl,
    coveredCount_mergeHits_disjoint x.s y.s hs ds,
    coveredCount_mergeHits_disjoint x.b y.b hb db,
    coveredCount_mergeHits_disjoint x.f y.f hf df,
    coveredCount_mergeHits_disjoint x.l y.l hl dl,
    pctQ_le_mergeHits_left hs, hgeR x.s y.s hs,
    pctQ_le_mergeHits_left hb, hgeR x.b y.b hb,
    pctQ_le_mergeHits_left hf, hgeR x.f y.f hf,
    pctQ_le_mergeHits_left hl, hgeR x.l y.l hl,
    by decide, by decide⟩
  rw [runScript_both]
  simp [reportData, readF, hmc]

/-- Witness for C2 at a concrete overlapping file with disjoint covered
sets: branch hit lists `[1,0,0]` and `[0,0,3]` merge to a covered count of
2 = 1 + 1. -/
theorem c2_same_file_union_witness :
    ((⟨[1, 0], [1, 0, 0], [1], [1, 0]⟩ : FileCov).b.length =
      (⟨[0, 2], [0, 0, 3], [0], [0, 1]⟩ : FileCov).b.length) ∧
    hitsDisjoint (⟨[1, 0], [1, 0, 0], [1], [1, 0]⟩ : FileCov).b
      (⟨[0, 2], [0, 0, 3], [0], [0, 1]⟩ : FileCov).b = true ∧
    coveredCount (mergeFileCov ⟨[1, 0], [1, 0, 0], [1], [1, 0]⟩
        ⟨[0, 2], [0, 0, 3], [0], [0, 1]⟩).b =
      coveredCount (⟨[1, 0], [1, 0, 0], [1], [1, 0]⟩ : FileCov).b +
      coveredCount (⟨[0, 2], [0, 0, 3], [0], [0, 1]⟩ : FileCov).b ∧
    reportData (runMergeScript (mkInitFS
        (some [("src/App.tsx", ⟨[1, 0], [1, 0, 0], [1], [1, 0]⟩)])
        (some [("src/App.tsx", ⟨[0, 2], [0, 0, 3], [0], [0, 1]⟩)]))) =
      some [("src/App.tsx", mergeFileCov ⟨[1, 0], [1, 0, 0], [1], [1, 0]⟩
        ⟨[0, 2], [0, 0, 3], [0], [0, 1]⟩)] := by
  have h := c2_same_file_union "src/App.tsx"
    ⟨[1, 0], [1, 0, 0], [1], [1, 0]⟩ ⟨[0, 2], [0, 0, 3], [0], [0, 1]⟩
    rfl rfl rfl rfl (by decide) (by decide) (by decide) (by decide)
  exact ⟨rfl, by decide, h.2.2.2.2.2.2.1, h.1⟩

/-- C7 counterexample: starting from a filesystem holding a stale
`coverage.json` and a malformed Cypress input, the run stages the Cypress
file (found-message logged), the report step fails (exit 1), and the staged
file is nevertheless deleted by the cleanup — so staging artifacts are not
deleted "only after successful report generation". -/
theorem c7_cleanup_counterexample :
    "✅ Found Cypress coverage data" ∈
      (runMergeScript [(coverageJson, FileData.malformed),
        (cypressSrc, FileData.malformed)]).log ∧
    readF (runMergeScript [(coverageJson, FileData.malformed),
        (cypressSrc, FileData.malformed)]).fs cypressDst = none ∧
    (runMergeScript [(coverageJson, FileData.malformed),
        (cypressSrc, FileData.malformed)]).reportExit = 1 ∧
    (runMergeScript [(coverageJson, FileData.malformed),
        (cypressSrc, FileData.malformed)]).exitStatus = 0 := by
  decide

/-- C7 as amended: the cleanup runs unconditionally after the report step,
so after every run — successful or not — no staging artifact (staged
per-producer files, nyc workspace content, intermediate `coverage.json`)
remains; and whenever the report step succeeded the rendered report page is
left intact as the run's durable output. -/
theorem c7_cleanup_after_report_step (fs0 : FS) :
    readF (runMergeScript fs0).fs cypressDst = none ∧
    readF (runMergeScript fs0).fs vitestDst = none ∧
    readF (runMergeScript fs0).fs outJson = none ∧
    readF (runMergeScript fs0).fs coverageJson = none ∧
    ((runMergeScript fs0).reportExit = 0 →
      ∃ d, readF (runMergeScript fs0).fs indexHtml = some (FileData.report d)) := by
  rw [runMergeScript_fs, runMergeScript_reportExit]
  generalize (mergeStage
    (stageProducer vitestSrc vitestDst
      "✅ Found Vitest coverage data" "⚠️  No Vitest coverage data found"
      (stageProducer cypressSrc cypressDst
        "✅ Found Cypress coverage data" "⚠️  No Cypress coverage data found"
        (recreateDirs fs0)).1).1).1 = m1
  refine ⟨(cleanupStage_removes _).1, (cleanupStage_removes _).2.1,
    (cleanupStage_removes _).2.2, ?_, ?_⟩
  · rw [cleanupStage_preserves_outside (by decide) (by decide),
      reportStage_preserves_coverageJson]
    exact mvStage_no_coverageJson _
  · intro h
    unfold reportStage at h ⊢
    cases hrep : nycReport (mvStage m1) with
    | none =>
      rw [hrep] at h
      simp at h
    | some d =>
      refine ⟨d, ?_⟩
      rw [cleanupStage_preserves_outside (by decide) (by decide)]
      exact readF_writeF_self (mvStage m1) indexHtml (FileData.report d)

/-- Witness for the amended C7 at a concrete run (zero inputs): no staging
artifact remains and, the report step having succeeded, the rendered page
is present. -/
theorem c7_cleanup_after_report_step_witness :
    readF (runMergeScript (mkInitFS none none)).fs cypressDst = none ∧
    (∃ d, readF (runMergeScript (mkInitFS none none)).fs indexHtml =
      some (FileData.report d)) := by
  have h := c7_cleanup_after_report_step (mkInitFS none none)
  exact ⟨h.1, h.2.2.2.2 (by decide)⟩

/-- C8 counterexample: the staging step is a destructive `mv`, so after a
run the Cypress file is gone from its producer-specific path — the original
per-run file is not "unchanged by a pipeline invocation". -/
theorem c8_original_path_counterexample :
    readF (mkInitFS (some exCounterData) none) cypressSrc =
      some (FileData.cov exCounterData) ∧
    readF (runMergeScript (mkInitFS (some exCounterData) none)).fs cypressSrc =
      none := by
  decide

/-- C8 as amended: the pipeline never rewrites a per-run coverage file's
contents in place (the data rendered into the report is the inputs' merge,
unmodified), but the staging `mv` is destructive to the original paths:
after a run both producer-specific paths are empty, and a re-run without
regenerating fresh per-run data finds them absent, warns for both
producers, renders an empty report, and still exits 0. -/
theorem c8_destructive_rename (A B : CovData) :
    readF (runMergeScript (mkInitFS (some A) (some B))).fs cypressSrc = none ∧
    readF (runMergeScript (mkInitFS (some A) (some B))).fs vitestSrc = none ∧
    reportData (runMergeScript (mkInitFS (some A) (some B))) = some (mergeCov A B) ∧
    "⚠️  No Cypress coverage data found" ∈
      (runMergeScript (runMergeScript (mkInitFS (some A) (some B))).fs).log ∧
    "⚠️  No Vitest coverage data found" ∈
      (runMergeScript (runMergeScript (mkInitFS (some A) (some B))).fs).log ∧
    (runMergeScript (runMergeScript (mkInitFS (some A) (some B))).fs).exitStatus = 0 ∧
    reportData (runMergeScript (runMergeScript (mkInitFS (some A) (some B))).fs) =
      some [] := by
  have hfs : (runMergeScript (mkInitFS (some A) (some B))).fs =
      [(indexHtml, FileData.report (mergeCov A B))] := by
    rw [runScript_both]
  refine ⟨?_, ?_, ?_, ?_, ?_, ?_, ?_⟩
  · rw [hfs]; simp [readF]
  · rw [hfs]; simp [readF]
  · rw [runScript_both]; simp [reportData, readF]
  · rw [hfs, runScript_reportOnly]; simp
  · rw [hfs, runScript_reportOnly]; simp
  · rw [hfs, runScript_reportOnly]
  · rw [hfs, runScript_reportOnly]; simp [reportData, readF]
